import Mathlib

/-!
# Verification of the ASGI adapter (`sanic/asgi.py`)

A shallow embedding of the ASGI protocol adapter: `MockProtocol`,
`ASGIApp.create`, `ASGIApp.read_body`, `ASGIApp.stream_body`,
`ASGIApp.__call__`, `ASGIApp.stream_callback`, and `Lifespan`.

Conventions of the embedding:
* Python `bytes` values are `List Nat` (each entry a byte, `< 256`).
* Python `str` values are Lean `String`; `str.encode("latin-1")` maps each
  code point to one byte (`latin1`), `bytes.decode("latin-1")` maps each
  byte to the code point of the same value (`latin1Decode`).
* The asynchronous `receive` channel is a finite list of inbound messages;
  a function that would suspend forever on an exhausted channel returns
  `none`.
* Outbound `send` calls are collected as a trace (a `List OutEvent`).
-/

/-- `str.encode("latin-1")`: one byte per code point. -/
def latin1 (s : String) : List Nat := s.data.map Char.toNat

/-- `bytes.decode("latin-1")`: one code point per byte. -/
def latin1Decode (bs : List Nat) : String := String.mk (bs.map Char.ofNat)

/-- UTF-8 encoding of a single code point (as used by `str.encode("utf-8")`). -/
def utf8Char (n : Nat) : List Nat :=
  if n < 128 then [n]
  else if n < 2048 then [192 + n / 64, 128 + n % 64]
  else if n < 65536 then [224 + n / 4096, 128 + (n / 64) % 64, 128 + n % 64]
  else [240 + n / 262144, 128 + (n / 4096) % 64, 128 + (n / 64) % 64, 128 + n % 64]

/-- `str.encode("utf-8")`. -/
def utf8Bytes (s : String) : List Nat := (s.data.map (fun c => utf8Char c.toNat)).flatten

/-- ASCII lower-casing of a string, modelling the case-insensitive key
comparison of `CIMultiDict` (header keys are ASCII). -/
def asciiLower (s : String) : String :=
  String.mk (s.data.map fun c =>
    if 65 ≤ c.toNat ∧ c.toNat ≤ 90 then Char.ofNat (c.toNat + 32) else c)

/-- A value of the dynamically typed host language, as far as the adapter
compares values across types: a text string or a byte string.  Equality
between a `str` and a `bytes` value is always false. -/
inductive PyVal
  | pstr (s : String)
  | pbytes (b : List Nat)
deriving DecidableEq

/-- The membership test `name not in (b"Set-Cookie",)` from the
`stream_callback` recovery branch, where `name` is a `str` header name:
the comparison is between a `str` and the `bytes` literal. -/
def keepHeader (name : String) : Bool :=
  !(decide (PyVal.pstr name = PyVal.pbytes (latin1 "Set-Cookie")))

/-- Outbound ASGI events sent over the channel (`http.response.start`
carries the status and the encoded header byte pairs; `http.response.body`
carries a chunk and the `more_body` flag). -/
inductive OutEvent
  | start (status : Nat) (headers : List (List Nat × List Nat))
  | body (data : List Nat) (more : Bool)
deriving DecidableEq

/-! ## MockProtocol -/

/-- State of `MockProtocol`: the two `asyncio.Event`s (`_not_paused`,
`_complete`) and the trace of events sent through the transport. -/
structure MockProtocol where
  not_paused : Bool
  complete_ev : Bool
  sent : List OutEvent
deriving DecidableEq

/-- `MockProtocol.__init__`: `_not_paused` set, `_complete` clear. -/
def MockProtocol.init : MockProtocol :=
  { not_paused := true, complete_ev := false, sent := [] }

/-- `pause_writing`: clears `_not_paused`. -/
def MockProtocol.pause_writing (p : MockProtocol) : MockProtocol :=
  { p with not_paused := false }

/-- `resume_writing`: sets `_not_paused`. -/
def MockProtocol.resume_writing (p : MockProtocol) : MockProtocol :=
  { p with not_paused := true }

/-- `is_complete`: whether the `_complete` event is set. -/
def MockProtocol.is_complete (p : MockProtocol) : Bool := p.complete_ev

/-- `complete`: sets `_not_paused` (exactly as the source does — it does not
set `_complete`) and sends the terminal empty body event. -/
def MockProtocol.complete (p : MockProtocol) : MockProtocol :=
  { p with not_paused := true, sent := p.sent ++ [OutEvent.body [] false] }

/-- `push_data`: sends a chunk with `more_body=True` unless `is_complete`. -/
def MockProtocol.push_data (p : MockProtocol) (data : List Nat) : MockProtocol :=
  if p.is_complete then p
  else { p with sent := p.sent ++ [OutEvent.body data true] }

/-! ## Header decoding and `do_stream` -/

/-- The header decode in `ASGIApp.create`:
`(key.decode("latin-1"), value.decode("latin-1")) for key, value in scope["headers"]`. -/
def decodeHeaders (hs : List (List Nat × List Nat)) : List (String × String) :=
  hs.map fun p => (latin1Decode p.1, latin1Decode p.2)

/-- `CIMultiDict.get(key)`: the value of the first entry whose key matches
case-insensitively, or `none`. -/
def ciGet (hs : List (String × String)) (key : String) : Option String :=
  (hs.find? fun p => asciiLower p.1 == asciiLower key).map Prod.snd

/-- `CIMultiDict.__contains__(key)`: case-insensitive key containment. -/
def containsCI (hs : List (String × String)) (key : String) : Bool :=
  hs.any fun p => asciiLower p.1 == asciiLower key

/-- `do_stream = True if headers.get("expect") == "100-continue" else False`. -/
def doStream (hs : List (String × String)) : Bool :=
  match ciGet hs "expect" with
  | some v => v == "100-continue"
  | none => false

/-! ## URL quoting (`urllib.parse.quote` with default `safe="/"`) -/

/-- Bytes `urllib.parse.quote` leaves unescaped: ASCII letters, digits,
`_ . - ~` and the default safe character `/`. -/
def safeByte (b : Nat) : Bool :=
  (65 ≤ b && b ≤ 90) || (97 ≤ b && b ≤ 122) || (48 ≤ b && b ≤ 57) ||
    b == 45 || b == 46 || b == 95 || b == 126 || b == 47

/-- Upper-case hexadecimal digit, as produced by `quote`. -/
def hexDigitUpper (n : Nat) : Nat := if n < 10 then 48 + n else 55 + n

/-- `urllib.parse.quote` at the byte level: the input is the UTF-8 byte
sequence of the path string, safe bytes pass through, every other byte
becomes `%XX`. -/
def quoteBytes (bs : List Nat) : List Nat :=
  (bs.map fun b =>
    if safeByte b then [b]
    else [37, hexDigitUpper (b / 16), hexDigitUpper (b % 16)]).flatten

/-! ## `ASGIApp.create` -/

/-- An ASGI connection scope, with the fields `ASGIApp.create` reads.
`path` holds the UTF-8 bytes of the `path` string, `root_path` the
latin-1 bytes of the `root_path` string (`""` when absent), and
`query_string` the raw query-string bytes. -/
structure Scope where
  type_ : String
  path : List Nat
  query_string : List Nat
  root_path : List Nat
  headers : List (List Nat × List Nat)
  method : String
  http_version : String
deriving DecidableEq

/-- Modelled from the spec: the framework-native `Request` constructed by
the Connection Adapter from URL bytes, decoded headers, version and method
(the `Request` class itself is outside the adapter source). -/
structure Request where
  url : List Nat
  headers : List (String × String)
  version : String
  method : String
deriving DecidableEq

/-- Result of `ASGIApp.create` for the branch taken. -/
inductive CreateOutcome
  | lifespanDelegated
  | requestBuilt (req : Request)
deriving DecidableEq

/-- Errors raised during `ASGIApp.create`: referencing a local variable
that was never assigned raises `UnboundLocalError` in the host language. -/
inductive CreateErr
  | unboundLocal (name : String)
deriving DecidableEq

/-- The adapter instance fields set by `ASGIApp.create`. -/
structure ASGIAppState where
  do_stream : Bool
  outcome : CreateOutcome
deriving DecidableEq

/-- `ASGIApp.create`: decode headers, compute `do_stream`; delegate for a
`lifespan` scope; otherwise build the URL bytes
(`root_path + quote(path)` encoded latin-1, then `b"?" + query_string`),
bind `version`/`method` in the `http` and `websocket` branches only, and
construct the `Request` — which references `version` and `method`, unbound
for any other scope type. -/
def create (scope : Scope) : Except CreateErr ASGIAppState :=
  let headers := decodeHeaders scope.headers
  let ds := doStream headers
  if scope.type_ = "lifespan" then
    Except.ok { do_stream := ds, outcome := CreateOutcome.lifespanDelegated }
  else
    let url := scope.root_path ++ quoteBytes scope.path ++ [63] ++ scope.query_string
    let vm : Option (String × String) :=
      if scope.type_ = "http" then some (scope.http_version, scope.method)
      else if scope.type_ = "websocket" then some ("1.1", "GET")
      else none
    match vm with
    | some (v, m) =>
        Except.ok { do_stream := ds,
                    outcome := CreateOutcome.requestBuilt
                      { url := url, headers := headers, version := v, method := m } }
    | none => Except.error (CreateErr.unboundLocal "version")

/-- Projection: the `do_stream` field of a successfully created adapter. -/
def getDoStream : Except CreateErr ASGIAppState → Option Bool
  | Except.ok st => some st.do_stream
  | Except.error _ => none

/-! ## Body ingestion: `read_body`, `stream_body`, `__call__` -/

/-- An inbound `http.request` message: `body` and `more_body` are optional
dictionary fields (`message.get("body", b"")`,
`message.get("more_body", False)`). -/
structure ASGIMessage where
  body : Option (List Nat)
  more_body : Option Bool
deriving DecidableEq

/-- `ASGIApp.read_body`: drain messages, concatenating `body` fields, until
a message reports no more body.  Returns the buffer and the messages left
on the channel; `none` when the channel is exhausted first (the coroutine
would suspend forever). -/
def read_body : List ASGIMessage → Option (List Nat × List ASGIMessage)
  | [] => none
  | m :: ms =>
    if m.more_body.getD false then
      match read_body ms with
      | some (b, rest) => some (m.body.getD [] ++ b, rest)
      | none => none
    else some (m.body.getD [], ms)

/-- `ASGIApp.stream_body`: put each message's chunk into the request's
stream, then put the `None` sentinel.  Returns the trace of `put` calls
(`some chunk` for a data chunk, `none` for the sentinel) and the messages
left on the channel. -/
def stream_body : List ASGIMessage → Option (List (Option (List Nat)) × List ASGIMessage)
  | [] => none
  | m :: ms =>
    if m.more_body.getD false then
      match stream_body ms with
      | some (puts, rest) => some (some (m.body.getD []) :: puts, rest)
      | none => none
    else some ([some (m.body.getD []), none], ms)

/-- The prefix of the channel that body ingestion consumes: everything up
to and including the first message whose `more_body` (defaulted to false)
is false, paired with the remaining messages. -/
def splitAtTerminal : List ASGIMessage → Option (List ASGIMessage × List ASGIMessage)
  | [] => none
  | m :: ms =>
    if m.more_body.getD false then
      match splitAtTerminal ms with
      | some (pre, rest) => some (m :: pre, rest)
      | none => none
    else some ([m], ms)

/-- Concatenation of the (defaulted) `body` fields of a message list. -/
def bodyConcat (msgs : List ASGIMessage) : List Nat :=
  (msgs.map fun m => m.body.getD []).flatten

/-- Observable actions of `ASGIApp.__call__`. -/
inductive CallAction
  | assignBody (b : List Nat)
  | spawnStreamTask
  | invokeHandler (hasCallback : Bool)
deriving DecidableEq

/-- `ASGIApp.__call__`: when not streaming, assign `request.body` from
`read_body`, then invoke the handler; when streaming, schedule
`stream_body` as a background task and invoke the handler at once.  The
response callback is passed iff the connection is not a websocket. -/
def asgi_call (ds ws : Bool) (msgs : List ASGIMessage) :
    Option (List CallAction × List ASGIMessage) :=
  if ds then
    some ([CallAction.spawnStreamTask, CallAction.invokeHandler (!ws)], msgs)
  else
    match read_body msgs with
    | some (b, rest) =>
        some ([CallAction.assignBody b, CallAction.invokeHandler (!ws)], rest)
    | none => none

/-! ## `ASGIApp.stream_callback` -/

/-- Modelled from the spec: a framework `HTTPResponse`, exposing `status`,
`headers` (ordered `str` pairs with case-insensitive keys), `cookies`
(cookie name paired with its rendered cookie string) and a buffered `body`
(the response class lives outside the adapter source). -/
structure HTTPResponse where
  status : Nat
  headers : List (String × String)
  cookies : List (String × String)
  body : List Nat
deriving DecidableEq

/-- Modelled from the spec: a framework `StreamingHTTPResponse`, whose
body-producing procedure pushes `chunks` through the bound protocol handle
and which carries no buffered body. -/
structure StreamingHTTPResponse where
  status : Nat
  headers : List (String × String)
  cookies : List (String × String)
  chunks : List (List Nat)
deriving DecidableEq

/-- The object a handler passes to `stream_callback`: a buffered response,
a streaming response, or an object with no `headers` attribute (accessing
`headers` on it raises `AttributeError`). -/
inductive RespObj
  | http (r : HTTPResponse)
  | streaming (r : StreamingHTTPResponse)
  | invalid (tyName : String)
deriving DecidableEq

/-- The response variable after the `try`/`except` header encoding: either
the original valid response or the substituted error-handler response. -/
inductive ValidResp
  | http (r : HTTPResponse)
  | streaming (r : StreamingHTTPResponse)
deriving DecidableEq

/-- `response.headers` of a valid response. -/
def ValidResp.headersOf : ValidResp → List (String × String)
  | ValidResp.http r => r.headers
  | ValidResp.streaming r => r.headers

/-- `response.status` of a valid response. -/
def ValidResp.statusOf : ValidResp → Nat
  | ValidResp.http r => r.status
  | ValidResp.streaming r => r.status

/-- `response.cookies` of a valid response. -/
def ValidResp.cookiesOf : ValidResp → List (String × String)
  | ValidResp.http r => r.cookies
  | ValidResp.streaming r => r.cookies

/-- `isinstance(response, StreamingHTTPResponse)`. -/
def ValidResp.isStreaming : ValidResp → Bool
  | ValidResp.http _ => false
  | ValidResp.streaming _ => true

/-- `response.body` where it is read (only on the non-streaming branch). -/
def ValidResp.bodyOf : ValidResp → List Nat
  | ValidResp.http r => r.body
  | ValidResp.streaming _ => []

/-- Latin-1 encoding of a `str` header item list:
`(str(name).encode("latin-1"), str(value).encode("latin-1"))`. -/
def encodeHeaders (hs : List (String × String)) : List (List Nat × List Nat) :=
  hs.map fun p => (latin1 p.1, latin1 p.2)

/-- The `try`/`except AttributeError` block of `stream_callback`: encode the
response headers; on an object with no `headers` attribute, log the anomaly,
substitute the error-handler response and re-encode its headers keeping
each item whose name passes `name not in (b"Set-Cookie",)`.  Returns
(logged, the response variable after the block, the encoded headers). -/
def tryEncodeHeaders (errResp : HTTPResponse) (resp : RespObj) :
    Bool × ValidResp × List (List Nat × List Nat) :=
  match resp with
  | RespObj.http r => (false, ValidResp.http r, encodeHeaders r.headers)
  | RespObj.streaming r => (false, ValidResp.streaming r, encodeHeaders r.headers)
  | RespObj.invalid _ =>
      (true, ValidResp.http errResp,
        encodeHeaders (errResp.headers.filter fun p => keepHeader p.1))

/-- `ASGIApp.stream_callback`: encode headers (recovering from an invalid
response object via the error handler's response `errResp`); append a
`content-length` header when absent and the response is not streaming;
append one `set-cookie` header per cookie; send `http.response.start`;
then stream the chunks through a fresh protocol handle and complete
(streaming), or send the single final `http.response.body` (buffered).
Returns whether the anomaly was logged and the trace of sent events. -/
def stream_callback (errResp : HTTPResponse) (resp : RespObj) :
    Bool × List OutEvent :=
  let t := tryEncodeHeaders errResp resp
  let logged := t.1
  let response := t.2.1
  let hdrs0 := t.2.2
  let hdrs1 :=
    if !(containsCI response.headersOf "content-length") && !response.isStreaming then
      hdrs0 ++ [(latin1 "content-length", latin1 (toString response.bodyOf.length))]
    else hdrs0
  let hdrs2 :=
    if response.cookiesOf.isEmpty then hdrs1
    else hdrs1 ++ response.cookiesOf.map fun p => (latin1 "set-cookie", utf8Bytes p.2)
  let bodyEvs :=
    match response with
    | ValidResp.streaming r =>
        r.chunks.map (fun c => OutEvent.body c true) ++ [OutEvent.body [] false]
    | ValidResp.http r => [OutEvent.body r.body false]
  (logged, OutEvent.start response.statusOf hdrs2 :: bodyEvs)

/-! ## `Lifespan` -/

/-- Modelled from the spec: a registered lifecycle listener, identified by
its registration position; invoking it either returns (possibly after an
await) or raises the error `raises`. -/
structure Listener where
  id : Nat
  raises : Option Nat
deriving DecidableEq

/-- One listener loop (`for handler in listeners[...]: ... await`):
invoke listeners in registration order, stopping at the first raise.
Returns the ids invoked and the propagated error, if any. -/
def runListeners : List Listener → List Nat × Option Nat
  | [] => ([], none)
  | l :: ls =>
    match l.raises with
    | some e => ([l.id], some e)
    | none =>
        let r := runListeners ls
        (l.id :: r.1, r.2)

/-- `Lifespan.startup`: the `before_server_start` loop, then (when it did
not raise) the `after_server_start` loop. -/
def Lifespan.startup (before after : List Listener) : List Nat × Option Nat :=
  match runListeners before with
  | (ids, some e) => (ids, some e)
  | (ids, none) =>
      let r := runListeners after
      (ids ++ r.1, r.2)

/-- The startup half of `Lifespan.__call__`: on a `lifespan.startup`
message, run `startup` and, only when no listener raised, send
`lifespan.startup.complete`.  Returns the invoked listener ids, the sent
lifecycle events, and the propagated error. -/
def Lifespan.call_startup (before after : List Listener) (msgType : String) :
    List Nat × List String × Option Nat :=
  if msgType = "lifespan.startup" then
    match Lifespan.startup before after with
    | (ids, none) => (ids, ["lifespan.startup.complete"], none)
    | (ids, some e) => (ids, [], some e)
  else ([], [], none)

/-! ## Helper lemmas -/

/-- The `str`-vs-`bytes` membership test of the recovery branch never
matches: a `str` name is never equal to the `bytes` literal, so every
header item is kept. -/
theorem keepHeader_eq_true (name : String) : keepHeader name = true := by
  simp [keepHeader]

/-- A listener loop over raise-free listeners invokes all of them in
order and propagates no error. -/
theorem runListeners_ok (L : List Listener) (h : ∀ l ∈ L, l.raises = none) :
    runListeners L = (L.map Listener.id, none) := by
  induction L with
  | nil => rfl
  | cons a L ih =>
      have ha : a.raises = none := h a (List.mem_cons_self a L)
      have hL : ∀ l ∈ L, l.raises = none := fun l hl => h l (List.mem_cons_of_mem a hl)
      simp [runListeners, ha, ih hL]

/-- A listener loop stops at the first raising listener: the raise-free
prefix and the raising listener are invoked, the rest are not, and the
error propagates. -/
theorem runListeners_err (pre : List Listener) (l : Listener) (post : List Listener)
    (e : Nat) (hpre : ∀ p ∈ pre, p.raises = none) (hl : l.raises = some e) :
    runListeners (pre ++ l :: post) = (pre.map Listener.id ++ [l.id], some e) := by
  induction pre with
  | nil => simp [runListeners, hl]
  | cons a pre ih =>
      have ha : a.raises = none := hpre a (List.mem_cons_self a pre)
      have hp : ∀ p ∈ pre, p.raises = none := fun p hp => hpre p (List.mem_cons_of_mem a hp)
      simp [runListeners, ha, ih hp]

/-- `Lifespan.startup` behaves as one loop over the concatenation of the
`before_server_start` and `after_server_start` registrations. -/
theorem startup_eq_runListeners (A B : List Listener) :
    Lifespan.startup A B = runListeners (A ++ B) := by
  induction A with
  | nil =>
      cases hB : runListeners B with
      | mk ids err => simp [Lifespan.startup, runListeners, hB]
  | cons a A ih =>
      cases ha : a.raises with
      | some e => simp [Lifespan.startup, runListeners, ha]
      | none =>
          cases hr : runListeners A with
          | mk ids err =>
              cases err with
              | some e =>
                  have hAB : runListeners (A ++ B) = (ids, some e) := by
                    rw [← ih]; simp [Lifespan.startup, hr]
                  simp [Lifespan.startup, runListeners, ha, hr, hAB]
              | none =>
                  cases hb : runListeners B with
                  | mk idsB errB =>
                      have hAB : runListeners (A ++ B) = (ids ++ idsB, errB) := by
                        rw [← ih]; simp [Lifespan.startup, hr, hb]
                      simp [Lifespan.startup, runListeners, ha, hr, hb, hAB]

/-- `splitAtTerminal` is a decomposition of the channel: the consumed
prefix followed by the rest is the channel, and `read_body` and
`stream_body` are determined on it. -/
theorem split_spec (msgs : List ASGIMessage) :
    ∀ pre rest, splitAtTerminal msgs = some (pre, rest) →
      msgs = pre ++ rest ∧
      read_body msgs = some (bodyConcat pre, rest) ∧
      stream_body msgs = some ((pre.map fun m => some (m.body.getD [])) ++ [none], rest) := by
  induction msgs with
  | nil => intro pre rest h; simp [splitAtTerminal] at h
  | cons m ms ih =>
      intro pre rest h
      by_cases hm : m.more_body.getD false
      · rw [splitAtTerminal, if_pos hm] at h
        cases hs : splitAtTerminal ms with
        | none => rw [hs] at h; simp at h
        | some pr =>
            rw [hs] at h
            cases pr with
            | mk p r =>
                simp at h
                obtain ⟨hpre, hrest⟩ := h
                obtain ⟨heq, hrb, hsb⟩ := ih p r hs
                subst hpre hrest
                refine ⟨by simp [heq], ?_, ?_⟩
                · rw [read_body, if_pos hm, hrb]
                  simp [bodyConcat]
                · rw [stream_body, if_pos hm, hsb]
                  simp
      · rw [splitAtTerminal, if_neg hm] at h
        simp at h
        obtain ⟨hpre, hrest⟩ := h
        subst hpre hrest
        refine ⟨by simp, ?_, ?_⟩
        · rw [read_body, if_neg hm]; simp [bodyConcat]
        · rw [stream_body, if_neg hm]; simp

/-- A channel whose last message has `more_body` false (or absent) has a
consumed prefix. -/
theorem splitAtTerminal_of_last (msgs : List ASGIMessage) (m : ASGIMessage)
    (hlast : msgs.getLast? = some m) (hterm : m.more_body.getD false = false) :
    ∃ pre rest, splitAtTerminal msgs = some (pre, rest) := by
  induction msgs with
  | nil => simp at hlast
  | cons m0 ms ih =>
      cases ms with
      | nil =>
          simp at hlast
          subst hlast
          exact ⟨[m0], [], by simp [splitAtTerminal, hterm]⟩
      | cons m1 ms1 =>
          rw [List.getLast?_cons_cons] at hlast
          obtain ⟨pre, rest, hs⟩ := ih hlast
          by_cases hm : m0.more_body.getD false
          · exact ⟨m0 :: pre, rest, by rw [splitAtTerminal, if_pos hm, hs]⟩
          · exact ⟨[m0], m1 :: ms1, by rw [splitAtTerminal, if_neg hm]⟩

/-! ## Claim theorems -/

/-- C10: both `read_body` and `stream_body` treat an absent `body` field as
the empty chunk (the message is interchangeable with one carrying `b""`),
and treat an absent `more_body` field as false, so ingestion terminates
right after such a message, returning (resp. pushing) that message's
defaulted chunk. -/
theorem absent_fields_default (b : Option (List Nat)) (mb : Option Bool)
    (ms : List ASGIMessage) :
    read_body ({ body := none, more_body := mb } :: ms) =
      read_body ({ body := some [], more_body := mb } :: ms) ∧
    stream_body ({ body := none, more_body := mb } :: ms) =
      stream_body ({ body := some [], more_body := mb } :: ms) ∧
    read_body ({ body := b, more_body := none } :: ms) = some (b.getD [], ms) ∧
    stream_body ({ body := b, more_body := none } :: ms) =
      some ([some (b.getD []), none], ms) := by
  refine ⟨?_, ?_, ?_, ?_⟩ <;>
    cases mb with
    | none => simp [read_body, stream_body]
    | some mv => cases mv <;> simp [read_body, stream_body]

/-- C4 (code bug): after `complete()` has emitted the terminal event,
`push_data` still emits a body event on the connection — `complete()` sets
`_not_paused` instead of `_complete`, so `is_complete` remains false and
the guard in `push_data` never suppresses the send. -/
theorem push_data_after_complete :
    (MockProtocol.init.complete).is_complete = false ∧
    ((MockProtocol.init.complete).push_data [120]).sent =
      [OutEvent.body [] false, OutEvent.body [120] true] := by
  constructor <;> rfl

/-- The error-handler response used in the C2 scenario: its headers carry a
`Set-Cookie` item. -/
def errC2 : HTTPResponse :=
  { status := 500,
    headers := [("Set-Cookie", "a=1"), ("Content-Type", "text")],
    cookies := [],
    body := [101, 114, 114] }

/-- The header list `stream_callback` actually emits in the C2 scenario:
the substituted response's headers with `Set-Cookie` retained (and the
appended `content-length`). -/
def hdrsC2 : List (List Nat × List Nat) :=
  encodeHeaders [("Set-Cookie", "a=1"), ("Content-Type", "text"), ("content-length", "3")]

/-- C2 (code bug): on an object with no `headers` attribute, the callback
does log the anomaly and substitute the error-handler response, but the
emitted start event still carries the substituted response's `Set-Cookie`
header — the filter compares `str` names against the `bytes` literal
`b"Set-Cookie"`, which never matches. -/
theorem set_cookie_not_excluded :
    (stream_callback errC2 (RespObj.invalid "dict")).1 = true ∧
    (stream_callback errC2 (RespObj.invalid "dict")).2 =
      [OutEvent.start 500 hdrsC2, OutEvent.body [101, 114, 114] false] ∧
    (latin1 "Set-Cookie", latin1 "a=1") ∈ hdrsC2 := by
  refine ⟨rfl, ?_, by decide⟩
  decide

/-- A scope of a type the adapter does not know. -/
def scC3 : Scope :=
  { type_ := "proxy", path := [47, 120], query_string := [], root_path := [],
    headers := [], method := "", http_version := "" }

/-- C3 (counterexample): for a scope whose type is none of `http`,
`websocket`, `lifespan`, `ASGIApp.create` does not complete without error —
it raises an unbound-local error when the `Request` construction references
the never-assigned `version`. -/
theorem create_unknown_type_cex :
    (scC3.type_ ≠ "http" ∧ scC3.type_ ≠ "websocket" ∧ scC3.type_ ≠ "lifespan") ∧
    create scC3 = Except.error (CreateErr.unboundLocal "version") := by
  exact ⟨by decide, rfl⟩

/-- C3 (amended): for every scope whose type is none of `http`,
`websocket`, `lifespan`, no `Request` is built and `ASGIApp.create` raises
an unbound-local error for `version` (control falls through the type
dispatch into the `Request` construction, whose `version`/`method`
arguments were never assigned). -/
theorem create_unknown_type (scope : Scope)
    (h1 : scope.type_ ≠ "http") (h2 : scope.type_ ≠ "websocket")
    (h3 : scope.type_ ≠ "lifespan") :
    create scope = Except.error (CreateErr.unboundLocal "version") := by
  simp [create, h1, h2, h3]

/-- C3 witness: the amended theorem at the concrete scope. -/
theorem create_unknown_type_witness :
    create scC3 = Except.error (CreateErr.unboundLocal "version") :=
  create_unknown_type scC3 (by decide) (by decide) (by decide)

/-- C5: on a channel whose last message reports no more body, `read_body`
returns exactly the concatenation of the (defaulted) `body` fields of the
consumed messages in delivery order, and the non-streaming `__call__`
assigns that buffer to the request body exactly once, before invoking the
handler. -/
theorem read_body_concat (msgs : List ASGIMessage) (m : ASGIMessage)
    (hlast : msgs.getLast? = some m) (hterm : m.more_body.getD false = false) :
    ∃ pre rest, splitAtTerminal msgs = some (pre, rest) ∧ msgs = pre ++ rest ∧
      read_body msgs = some (bodyConcat pre, rest) ∧
      ∀ ws : Bool, asgi_call false ws msgs =
        some ([CallAction.assignBody (bodyConcat pre), CallAction.invokeHandler (!ws)],
          rest) := by
  obtain ⟨pre, rest, hs⟩ := splitAtTerminal_of_last msgs m hlast hterm
  obtain ⟨heq, hrb, _⟩ := split_spec msgs pre rest hs
  exact ⟨pre, rest, hs, heq, hrb, fun ws => by simp [asgi_call, hrb]⟩

/-- C5 witness: two chunks, the second message terminal. -/
theorem read_body_concat_witness :
    ([⟨some [1, 2], some true⟩, ⟨some [3], some false⟩] : List ASGIMessage).getLast? =
        some ⟨some [3], some false⟩ ∧
    (⟨some [3], some false⟩ : ASGIMessage).more_body.getD false = false ∧
    ∃ pre rest,
      splitAtTerminal [⟨some [1, 2], some true⟩, ⟨some [3], some false⟩] =
        some (pre, rest) ∧
      ([⟨some [1, 2], some true⟩, ⟨some [3], some false⟩] : List ASGIMessage) =
        pre ++ rest ∧
      read_body [⟨some [1, 2], some true⟩, ⟨some [3], some false⟩] =
        some (bodyConcat pre, rest) ∧
      ∀ ws : Bool, asgi_call false ws [⟨some [1, 2], some true⟩, ⟨some [3], some false⟩] =
        some ([CallAction.assignBody (bodyConcat pre), CallAction.invokeHandler (!ws)],
          rest) :=
  ⟨by decide, by decide,
    read_body_concat [⟨some [1, 2], some true⟩, ⟨some [3], some false⟩]
      ⟨some [3], some false⟩ (by decide) (by decide)⟩

/-- C6: on a channel whose last message reports no more body, `stream_body`
puts into the request stream exactly the (defaulted) chunk of each consumed
message in delivery order — the terminal message's chunk included —
followed by exactly one `None` sentinel, and nothing after it. -/
theorem stream_body_puts (msgs : List ASGIMessage) (m : ASGIMessage)
    (hlast : msgs.getLast? = some m) (hterm : m.more_body.getD false = false) :
    ∃ pre rest, splitAtTerminal msgs = some (pre, rest) ∧ msgs = pre ++ rest ∧
      stream_body msgs =
        some ((pre.map fun x => some (x.body.getD [])) ++ [none], rest) := by
  obtain ⟨pre, rest, hs⟩ := splitAtTerminal_of_last msgs m hlast hterm
  obtain ⟨heq, _, hsb⟩ := split_spec msgs pre rest hs
  exact ⟨pre, rest, hs, heq, hsb⟩

/-- C6 witness: two chunks, the second message terminal. -/
theorem stream_body_puts_witness :
    ([⟨some [5], some true⟩, ⟨some [6, 7], none⟩] : List ASGIMessage).getLast? =
        some ⟨some [6, 7], none⟩ ∧
    (⟨some [6, 7], none⟩ : ASGIMessage).more_body.getD false = false ∧
    ∃ pre rest,
      splitAtTerminal [⟨some [5], some true⟩, ⟨some [6, 7], none⟩] = some (pre, rest) ∧
      ([⟨some [5], some true⟩, ⟨some [6, 7], none⟩] : List ASGIMessage) = pre ++ rest ∧
      stream_body [⟨some [5], some true⟩, ⟨some [6, 7], none⟩] =
        some ((pre.map fun x => some (x.body.getD [])) ++ [none], rest) :=
  ⟨by decide, by decide,
    stream_body_puts [⟨some [5], some true⟩, ⟨some [6, 7], none⟩]
      ⟨some [6, 7], none⟩ (by decide) (by decide)⟩

/-- C1: for a buffered response whose headers carry no `content-length`
key, `stream_callback` emits exactly one `http.response.start` (with the
response status and encoded headers) followed by exactly one
`http.response.body` whose body is the buffered body with `more_body`
false, and the emitted header list carries a `content-length` entry whose
value is the body length. -/
theorem stream_callback_buffered (r errResp : HTTPResponse)
    (hcl : containsCI r.headers "content-length" = false) :
    ∃ hs, stream_callback errResp (RespObj.http r) =
        (false, [OutEvent.start r.status hs, OutEvent.body r.body false]) ∧
      (latin1 "content-length", latin1 (toString r.body.length)) ∈ hs := by
  by_cases hc : r.cookies.isEmpty
  · refine ⟨encodeHeaders r.headers ++
        [(latin1 "content-length", latin1 (toString r.body.length))], ?_, by simp⟩
    simp [stream_callback, tryEncodeHeaders, ValidResp.headersOf, ValidResp.isStreaming,
      ValidResp.bodyOf, ValidResp.statusOf, ValidResp.cookiesOf, hcl, hc]
  · refine ⟨encodeHeaders r.headers ++
        [(latin1 "content-length", latin1 (toString r.body.length))] ++
        r.cookies.map (fun p => (latin1 "set-cookie", utf8Bytes p.2)), ?_, by simp⟩
    simp [stream_callback, tryEncodeHeaders, ValidResp.headersOf, ValidResp.isStreaming,
      ValidResp.bodyOf, ValidResp.statusOf, ValidResp.cookiesOf, hcl, hc]

/-- A buffered response without a `content-length` header. -/
def rC1 : HTTPResponse :=
  { status := 200, headers := [("x-a", "b")], cookies := [], body := [104, 105] }

/-- An error-handler response (unused on the valid path). -/
def erC1 : HTTPResponse := { status := 500, headers := [], cookies := [], body := [] }

/-- C1 witness: the theorem at a concrete two-byte body. -/
theorem stream_callback_buffered_witness :
    containsCI rC1.headers "content-length" = false ∧
    ∃ hs, stream_callback erC1 (RespObj.http rC1) =
        (false, [OutEvent.start rC1.status hs, OutEvent.body rC1.body false]) ∧
      (latin1 "content-length", latin1 (toString rC1.body.length)) ∈ hs :=
  ⟨by decide, stream_callback_buffered rC1 erC1 (by decide)⟩

/-- C7: startup invokes every `before_server_start` listener in
registration order, then every `after_server_start` listener in order, and
emits `lifespan.startup.complete` only after all completed; a raising
listener stops the remaining listeners, propagates its error, and no
completion event is sent. -/
theorem lifespan_startup_order (before after : List Listener) :
    ((∀ l ∈ before ++ after, l.raises = none) →
      Lifespan.call_startup before after "lifespan.startup" =
        ((before ++ after).map Listener.id, ["lifespan.startup.complete"], none)) ∧
    (∀ pre l post e, before ++ after = pre ++ l :: post →
      (∀ p ∈ pre, p.raises = none) → l.raises = some e →
      Lifespan.call_startup before after "lifespan.startup" =
        (pre.map Listener.id ++ [l.id], [], some e)) := by
  constructor
  · intro h
    simp [Lifespan.call_startup, startup_eq_runListeners, runListeners_ok _ h]
  · intro pre l post e heq hpre hl
    simp [Lifespan.call_startup, startup_eq_runListeners, heq,
      runListeners_err pre l post e hpre hl]

/-- C7 witness: listeners `[a, b]` before and `[c]` after are invoked in
order `a, b, c` before the completion event; when `a` raises, `b` and `c`
do not run and no completion event is sent. -/
theorem lifespan_startup_order_witness :
    Lifespan.call_startup [⟨1, none⟩, ⟨2, none⟩] [⟨3, none⟩] "lifespan.startup" =
      ([1, 2, 3], ["lifespan.startup.complete"], none) ∧
    Lifespan.call_startup [⟨1, some 7⟩, ⟨2, none⟩] [⟨3, none⟩] "lifespan.startup" =
      ([1], [], some 7) :=
  ⟨(lifespan_startup_order [⟨1, none⟩, ⟨2, none⟩] [⟨3, none⟩]).1 (by decide),
    (lifespan_startup_order [⟨1, some 7⟩, ⟨2, none⟩] [⟨3, none⟩]).2
      [] ⟨1, some 7⟩ [⟨2, none⟩, ⟨3, none⟩] 7 rfl (by decide) rfl⟩

/-- C8: for every scope of type `http`, `create` builds the request with
the scope's method and http version, and URL bytes
`root_path ++ quote(path) ++ "?" ++ query_string`, the query string
appended verbatim. -/
theorem create_http_request (scope : Scope) (h : scope.type_ = "http") :
    create scope = Except.ok
      { do_stream := doStream (decodeHeaders scope.headers),
        outcome := CreateOutcome.requestBuilt
          { url := scope.root_path ++ quoteBytes scope.path ++ [63] ++ scope.query_string,
            headers := decodeHeaders scope.headers,
            version := scope.http_version, method := scope.method } } := by
  simp [create, h]

/-- An `http` scope with root path `/r`, path `/a b` and query `x=1`. -/
def scC8 : Scope :=
  { type_ := "http", path := [47, 97, 32, 98], query_string := [120, 61, 49],
    root_path := [47, 114], headers := [(latin1 "expect", latin1 "nothing")],
    method := "POST", http_version := "1.1" }

/-- C8 witness: the theorem at the concrete scope; the space in the path
is percent-encoded as `%20`, the query string is untouched. -/
theorem create_http_request_witness :
    scC8.type_ = "http" ∧
    quoteBytes scC8.path = [47, 97, 37, 50, 48, 98] ∧
    create scC8 = Except.ok
      { do_stream := doStream (decodeHeaders scC8.headers),
        outcome := CreateOutcome.requestBuilt
          { url := scC8.root_path ++ quoteBytes scC8.path ++ [63] ++ scC8.query_string,
            headers := decodeHeaders scC8.headers,
            version := scC8.http_version, method := scC8.method } } :=
  ⟨rfl, by decide, create_http_request scC8 rfl⟩

/-- An `http` scope with two `expect` headers; the second carries
`100-continue`. -/
def scC9 : Scope :=
  { type_ := "http", path := [47], query_string := [], root_path := [],
    headers := [(latin1 "expect", latin1 "nope"),
                (latin1 "expect", latin1 "100-continue")],
    method := "GET", http_version := "1.1" }

/-- C9 (counterexample): the decoded case-insensitive header map contains
the key `expect` with value `100-continue` (as its second entry), yet the
adapter computes `do_stream = false` — the lookup takes the first value
(`nope`) only. -/
theorem do_stream_duplicate_cex :
    getDoStream (create scC9) = some false ∧
    ((decodeHeaders scC9.headers).any fun p =>
      asciiLower p.1 == "expect" && p.2 == "100-continue") = true := by
  constructor <;> decide

/-- C9 (amended): `do_stream` is true iff the first entry of the decoded
header map whose key case-insensitively equals `expect` has value exactly
`100-continue`; with no such entry, or a different first value,
`do_stream` is false. -/
theorem do_stream_first_value (hs : List (String × String)) :
    doStream hs = true ↔
      ∃ pre k v post, hs = pre ++ (k, v) :: post ∧
        (∀ p ∈ pre, asciiLower p.1 ≠ "expect") ∧
        asciiLower k = "expect" ∧ v = "100-continue" := by
  have hkey : asciiLower "expect" = "expect" := by decide
  induction hs with
  | nil =>
      constructor
      · intro h; simp [doStream, ciGet] at h
      · rintro ⟨pre, k, v, post, heq, -, -, -⟩
        exact absurd heq (by simp)
  | cons a hs ih =>
      by_cases hm : asciiLower a.1 = "expect"
      · have hfind : ciGet (a :: hs) "expect" = some a.2 := by
          rw [ciGet, List.find?_cons_of_pos _ (by simp [hkey, hm])]
          rfl
        constructor
        · intro h
          simp only [doStream, hfind] at h
          exact ⟨[], a.1, a.2, hs, by simp, by simp, hm, by simpa using h⟩
        · rintro ⟨pre, k, v, post, heq, hpre, hk, hv⟩
          cases pre with
          | nil =>
              simp at heq
              obtain ⟨ha, -⟩ := heq
              have hv2 : a.2 = "100-continue" := by rw [ha]; exact hv
              simp [doStream, hfind, hv2]
          | cons q pre1 =>
              simp at heq
              obtain ⟨haq, -⟩ := heq
              exact absurd (haq ▸ hm) (hpre q (List.mem_cons_self q pre1))
      · have hfind : ciGet (a :: hs) "expect" = ciGet hs "expect" := by
          rw [ciGet, List.find?_cons_of_neg _ (by simp [hkey, hm])]
          rfl
        have hds : doStream (a :: hs) = doStream hs := by
          simp only [doStream, hfind]
        rw [hds]
        constructor
        · intro h
          obtain ⟨pre, k, v, post, heq, hpre, hk, hv⟩ := ih.mp h
          refine ⟨a :: pre, k, v, post, by simp [heq], ?_, hk, hv⟩
          intro p hp
          rcases List.mem_cons.mp hp with h1 | h2
          · rw [h1]; exact hm
          · exact hpre p h2
        · rintro ⟨pre, k, v, post, heq, hpre, hk, hv⟩
          cases pre with
          | nil =>
              simp at heq
              obtain ⟨ha, -⟩ := heq
              exact absurd (show asciiLower a.1 = "expect" by rw [ha]; exact hk) hm
          | cons q pre1 =>
              simp at heq
              obtain ⟨-, hrest⟩ := heq
              exact ih.mpr ⟨pre1, k, v, post, hrest,
                fun p hp => hpre p (List.mem_cons_of_mem q hp), hk, hv⟩

/-- C9 amended witness: the characterization at the duplicate-header map. -/
theorem do_stream_first_value_witness :
    doStream (decodeHeaders scC9.headers) = true ↔
      ∃ pre k v post, decodeHeaders scC9.headers = pre ++ (k, v) :: post ∧
        (∀ p ∈ pre, asciiLower p.1 ≠ "expect") ∧
        asciiLower k = "expect" ∧ v = "100-continue" :=
  do_stream_first_value (decodeHeaders scC9.headers)
